import Mathlib

/-!
Verification of the `monadic` C++ library (tgockel/monadic) against its
natural-language specification.  The development shallowly embeds the three
core components the claims talk about:

* `exceptional T`    — `include/monadic/exceptional.hpp`: a value-or-exception
  sum.  The C++ class stores `std::exception_ptr ex_` (null on success) next
  to a `value_type val_`; we model `exception_ptr` as `Option Nat` (with
  `none` playing the role of the null pointer and a `Nat` identifying a
  thrown exception) and keep both fields.  A C++ callable that may throw is
  embedded as a function into `Except Nat`.
* `completion_state` / `completion_data` / `completion` / `completion_promise`
  — `include/monadic/completion.hpp`: the shared state machine.  Two views
  are embedded: a single-block view in which the registered continuation is
  an abstract token `κ` executed through an ambient `run` function (used for
  the per-block claims), and a multi-block "chain" view in which the
  continuations are exactly the closures `completion::wrap_call` installs
  (used for the `map`-chaining claim).
* `spin_mutex` — `include/monadic/spin_mutex.hpp`: the spin lock.  The clock
  is embedded as the list of successive values `TClock::now()` returns; an
  exhausted list stands for a reading at or past the expiry.

All transitions in the C++ code run under the block's spin lock, so the
embedding models the serialized (single-threaded) semantics of each
operation; the lock field itself carries no other information and is omitted
from `completion_data`.
-/

/-! ## `exceptional<T>` (include/monadic/exceptional.hpp) -/

/-- `exceptional<T>`: `ex_` models the `std::exception_ptr` member (`none` =
null = success), `val_` models the always-present `value_type val_` member. -/
structure exceptional (T : Type) where
  ex_ : Option Nat
  val_ : T
  deriving DecidableEq, Repr

/-- A default-constructed `exceptional<T>` has a null `ex_` and a
default-constructed value, matching `exceptional() = default`. -/
instance (T : Type) [Inhabited T] : Inhabited (exceptional T) :=
  ⟨{ ex_ := none, val_ := default }⟩

namespace exceptional

/-- `exceptional<T>::success(args...)`: constructs with `ex_` null and the
value in place. -/
def success {T : Type} (v : T) : exceptional T :=
  { ex_ := none, val_ := v }

/-- `exceptional<T>::failure(ex)`: throws `std::invalid_argument` when `ex`
is null, otherwise constructs with `ex_ = ex` and a default-constructed
value (the factory default-constructs `exceptional out;` first). -/
def failure (T : Type) [Inhabited T] (ex : Option Nat) :
    Except String (exceptional T) :=
  if ex.isNone then
    .error "exception_ptr must not be null"
  else
    .ok { ex_ := ex, val_ := default }

/-- `exceptional<T>::is_success()`: `!ex_`. -/
def is_success {T : Type} (x : exceptional T) : Bool :=
  x.ex_.isNone

/-- `exceptional<T>::is_failure()`: `!!ex_`. -/
def is_failure {T : Type} (x : exceptional T) : Bool :=
  x.ex_.isSome

/-- `exceptional<T>::get()`: rethrows the stored exception on failure,
yields the value on success.  The throw channel is the `Except` error. -/
def get {T : Type} (x : exceptional T) : Except Nat T :=
  match x.ex_ with
  | some e => .error e
  | none => .ok x.val_

/-- `exceptional<T>::map(action)`: on failure, `exceptional<U>::failure(ex_)`
without calling `action`; on success, `try_to(action, val_)`, i.e. the
result of `action` on success and the exception `action` throws on failure
(`detail::try_to::exec`).  The callable `action` may throw, which the
embedding renders as returning `Except.error`. -/
def map {T U : Type} [Inhabited U] (x : exceptional T)
    (action : T → Except Nat U) : exceptional U :=
  match x.ex_ with
  | some e => { ex_ := some e, val_ := default }
  | none =>
    match action x.val_ with
    | .ok u => { ex_ := none, val_ := u }
    | .error e => { ex_ := some e, val_ := default }

/-- `exceptional<T>::map(action)` again, instrumented with the list of
arguments `action` was invoked on, so that "the action is never called" is
an observable statement.  The first component agrees with `map`. -/
def mapCalls {T U : Type} [Inhabited U] (x : exceptional T)
    (action : T → Except Nat U) : exceptional U × List T :=
  match x.ex_ with
  | some e => ({ ex_ := some e, val_ := default }, [])
  | none =>
    (match action x.val_ with
     | .ok u => { ex_ := none, val_ := u }
     | .error e => { ex_ := some e, val_ := default }, [x.val_])

theorem mapCalls_fst {T U : Type} [Inhabited U] (x : exceptional T)
    (action : T → Except Nat U) : (x.mapCalls action).1 = x.map action := by
  cases x with
  | mk ex_ val_ => cases ex_ <;> simp [map, mapCalls]

end exceptional

/-! ### The `exceptional<void>` specialization -/

/-- `exceptional<void>`: only the `std::exception_ptr ex_` member. -/
structure exceptional_void where
  ex_ : Option Nat
  deriving DecidableEq, Repr

namespace exceptional_void

/-- `exceptional<void>::map(action)`: on failure, propagates `ex_` without
calling `action`; on success invokes `action` with no arguments inside
`try_to`.  The zero-argument callable is embedded as a thunk. -/
def map {U : Type} [Inhabited U] (x : exceptional_void)
    (action : Unit → Except Nat U) : exceptional U :=
  match x.ex_ with
  | some e => { ex_ := some e, val_ := default }
  | none =>
    match action () with
    | .ok u => { ex_ := none, val_ := u }
    | .error e => { ex_ := some e, val_ := default }

/-- Instrumented variant of `exceptional_void.map` recording each (nullary)
invocation of `action`. -/
def mapCalls {U : Type} [Inhabited U] (x : exceptional_void)
    (action : Unit → Except Nat U) : exceptional U × List Unit :=
  match x.ex_ with
  | some e => ({ ex_ := some e, val_ := default }, [])
  | none =>
    (match action () with
     | .ok u => { ex_ := none, val_ := u }
     | .error e => { ex_ := some e, val_ := default }, [()])

end exceptional_void

/-! ## `spin_mutex` (include/monadic/spin_mutex.hpp)

The mutex is a `Bool` (`true` = locked).  The embedding is the serialized
view of one caller: no other thread changes the flag during the loop, so
`try_lock` succeeds exactly when the flag is `false`.  The clock is the list
of successive readings `TClock::now()` returns inside the loop; when the
list is exhausted the remaining readings are taken to be at or past the
expiry time (a monotonic clock eventually passes any bound). -/

namespace spin_mutex

/-- `spin_mutex::try_lock()`: compare-and-swap `false → true`; returns
(success, new flag value). -/
def try_lock (locked : Bool) : Bool × Bool :=
  if locked then (false, true) else (true, true)

/-- Loop body of `try_lock_until` in `include/monadic/spin_mutex.hpp`:
`do { if (try_lock()) return true; } while (TClock::now() < expiry_time);
return false;`.  Returns (acquired, total try_lock attempts); `n` counts the
attempts already made. -/
def tlu_loop (locked : Bool) (expiry : Int) : List Int → Nat → Bool × Nat
  | [], n =>
    if (try_lock locked).1 then (true, n + 1) else (false, n + 1)
  | now :: rest, n =>
    if (try_lock locked).1 then (true, n + 1)
    else if now < expiry then tlu_loop locked expiry rest (n + 1)
    else (false, n + 1)

/-- `spin_mutex::try_lock_until(expiry_time)` of the documented header
(do-while loop: always at least one `try_lock` attempt). -/
def try_lock_until (locked : Bool) (expiry : Int) (clock : List Int) :
    Bool × Nat :=
  tlu_loop locked expiry clock 0

/-- Loop body of the older duplicate `try_lock_until`:
`while (TClock::now() < expiry_time) if (try_lock()) return true;
return false;` — the guard is evaluated before any attempt. -/
def tlu_legacy_loop (locked : Bool) (expiry : Int) :
    List Int → Nat → Bool × Nat
  | [], n => (false, n)
  | now :: rest, n =>
    if now < expiry then
      if (try_lock locked).1 then (true, n + 1)
      else tlu_legacy_loop locked expiry rest (n + 1)
    else (false, n)

/-- `spin_mutex::try_lock_until` of the older duplicate header (while loop:
no attempt once the deadline has passed). -/
def try_lock_until_legacy (locked : Bool) (expiry : Int) (clock : List Int) :
    Bool × Nat :=
  tlu_legacy_loop locked expiry clock 0

theorem tlu_loop_attempts (locked : Bool) (expiry : Int) :
    ∀ (clock : List Int) (n : Nat), n + 1 ≤ (tlu_loop locked expiry clock n).2
  | [], n => by
    by_cases h : (try_lock locked).1 <;> simp [tlu_loop, h]
  | now :: rest, n => by
    by_cases h : (try_lock locked).1
    · simp [tlu_loop, h]
    · by_cases h2 : now < expiry
      · have ih := tlu_loop_attempts locked expiry rest (n + 1)
        simp only [tlu_loop, h, h2, if_true, if_false, Bool.false_eq_true]
        omega
      · simp [tlu_loop, h, h2]

theorem tlu_loop_unlocked (expiry : Int) (clock : List Int) (n : Nat) :
    tlu_loop false expiry clock n = (true, n + 1) := by
  cases clock <;> simp [tlu_loop, try_lock]

end spin_mutex

/-! ## The completion state machine, single-block view
(include/monadic/completion.hpp)

`completion_data<T>` holds the phase, the delivered outcome and the
registered continuation.  The C++ `exceptional<T> value_` member is always
present as an object; "populated" in the spec's sense means it holds a
delivered outcome that has not been consumed, which the embedding renders
as `Option`: `none` is the default-constructed / moved-from object.  The
`std::function` member is nullable, hence also an `Option`.

In this view the continuation is an abstract token of type `κ`; executing a
token is delegated to an ambient `run : κ → exceptional T → Except E Unit`,
whose `Except.error` models the continuation throwing.  Each operation
returns the new block, the list of continuation invocations it performed
(token with argument), and its own throw channel. -/

/-- `completion_state` (the `phase` of the spec). -/
inductive completion_state where
  | no_value
  | has_value
  | has_callback
  | complete
  | disabled
  | broken
  deriving DecidableEq, Repr

/-- `completion_data<T>` (minus the spin lock, see the file comment). -/
structure completion_data (T κ : Type) where
  state_ : completion_state
  value_ : Option (exceptional T)
  callback_ : Option κ
  deriving DecidableEq, Repr

/-- The block `std::make_shared<completion_data<T>>()` produces:
value-initialized, so phase `no_value`, no outcome, null callback. -/
def completion_data.fresh (T κ : Type) : completion_data T κ :=
  { state_ := .no_value, value_ := none, callback_ := none }

/-- Errors an operation on a completion block can throw. -/
inductive completion_error (E : Type) where
  | logic_error (msg : String)
  | invalid_argument (msg : String)
  | cb_error (e : E)
  | bad_function_call
  deriving DecidableEq, Repr

/-- Result triple of a completion operation: the new block, the continuation
invocations performed, and the operation's throw channel. -/
abbrev completion_result (T κ E : Type) :=
  completion_data T κ × List (κ × exceptional T) × Except (completion_error E) Unit

namespace completion_promise

/-- `completion_promise<T>::complete(value)`:
* `no_value` → store the outcome, phase `has_value`;
* `has_callback` → invoke the stored callback inline with the outcome; a
  scope-exit guard (`on_scope_exit`, scope_exit.hpp) sets the phase to
  `complete` and nulls the callback even when the callback throws, so the
  new block is the same on both exits and the callback's exception is
  re-thrown afterwards;
* `disabled` → "do nothing";
* otherwise → throw `std::logic_error` before touching any field.
The delivered `value` is a parameter and is never written to `value_` in
the `has_callback` path. -/
def complete {T κ E : Type} (run : κ → exceptional T → Except E Unit)
    (d : completion_data T κ) (v : exceptional T) : completion_result T κ E :=
  match d.state_ with
  | .no_value =>
    ({ d with value_ := some v, state_ := .has_value }, [], .ok ())
  | .has_callback =>
    match d.callback_ with
    | some k =>
      ({ d with state_ := .complete, callback_ := none }, [(k, v)],
       (run k v).mapError .cb_error)
    | none =>
      -- calling a null std::function throws bad_function_call; the guard
      -- was already armed, so the phase still flips and the callback slot
      -- is still nulled while the exception propagates
      ({ d with state_ := .complete, callback_ := none }, [],
       .error .bad_function_call)
  | .disabled => (d, [], .ok ())
  | _ =>
    (d, [], .error (.logic_error "invalid state for completing a completion_promise"))

/-- `completion_promise<T>::set_value(args...)`: `complete(success(args...))`. -/
def set_value {T κ E : Type} (run : κ → exceptional T → Except E Unit)
    (d : completion_data T κ) (v : T) : completion_result T κ E :=
  complete run d (exceptional.success v)

/-- `completion_promise<T>::set_exception(ex)`:
`complete(exceptional<T>::failure(ex))`; the `failure` factory throws
`std::invalid_argument` on a null pointer before `complete` runs. -/
def set_exception {T κ E : Type} [Inhabited T]
    (run : κ → exceptional T → Except E Unit)
    (d : completion_data T κ) (ex : Option Nat) : completion_result T κ E :=
  match exceptional.failure T ex with
  | .error msg => (d, [], .error (.invalid_argument msg))
  | .ok x => complete run d x

/-- The implicitly-declared destructor `~completion_promise()`: the class
defines no destructor of its own, so destroying the handle only releases
its `shared_ptr` reference and performs no transition on the block. -/
def drop {T κ : Type} (d : completion_data T κ) : completion_data T κ :=
  d

end completion_promise

namespace completion

/-- `completion<T>::on_complete(func)`:
* `no_value` → store the continuation, phase `has_callback`;
* `has_value` → invoke `func` inline with the moved-out outcome under a
  scope-exit guard that sets the phase to `complete` (the guard does not
  touch `callback_`, and the moved-from `value_` is no longer populated);
* otherwise → throw `std::logic_error` before touching any field. -/
def on_complete {T κ E : Type} [Inhabited T]
    (run : κ → exceptional T → Except E Unit)
    (d : completion_data T κ) (f : κ) : completion_result T κ E :=
  match d.state_ with
  | .no_value =>
    ({ d with callback_ := some f, state_ := .has_callback }, [], .ok ())
  | .has_value =>
    let v := d.value_.getD default
    ({ d with state_ := .complete, value_ := none }, [(f, v)],
     (run f v).mapError .cb_error)
  | _ =>
    (d, [], .error (.logic_error "invalid state to call completion::on_complete"))

/-- `completion<T>::disable()`: unconditionally sets the phase to `disabled`
and nulls the callback; the body has no conditional and no throw.  The
delivered outcome, if any, is left in `value_`. -/
def disable {T κ : Type} (d : completion_data T κ) : completion_data T κ :=
  { d with state_ := .disabled, callback_ := none }

/-- `completion<T>::wrap_call(func, exfunc)` (the common body of `map` and
`recover`), restricted to its effect on this block; the fresh downstream
promise/completion pair lives in another block (see the chain view below).
The token `k` stands for the closure installed as the callback.
* `no_value` → install the chaining closure, phase `has_callback`;
* `has_value` → deliver `value_` (moved out) through `exfunc` into the
  fresh promise, then set the phase to `complete`;
* otherwise → throw `std::logic_error`.
The source writes `impl_->state` (without the trailing underscore) in three
places of this function; `completion_data` only declares `state_`, so those
lines are embedded as accesses to `state_`. -/
def wrap_call {T κ E : Type} (d : completion_data T κ) (k : κ) :
    completion_result T κ E :=
  match d.state_ with
  | .no_value =>
    ({ d with callback_ := some k, state_ := .has_callback }, [], .ok ())
  | .has_value =>
    ({ d with state_ := .complete, value_ := none }, [], .ok ())
  | _ =>
    (d, [], .error (.logic_error "invalid state to continue a completion"))

end completion

/-! ## Invariants on a completion block -/

/-- The invariant as the specification states it: `outcome` populated iff
the phase is `has_value` or `complete`; `continuation` populated iff the
phase is `has_callback`; never both populated. -/
abbrev spec_invariant {T κ : Type} (d : completion_data T κ) : Prop :=
  (d.value_.isSome ↔ (d.state_ = .has_value ∨ d.state_ = .complete)) ∧
  (d.callback_.isSome ↔ d.state_ = .has_callback) ∧
  ¬(d.value_.isSome = true ∧ d.callback_.isSome = true)

/-- The invariant the code actually maintains: the continuation is populated
iff the phase is `has_callback`; the outcome is populated iff the phase is
`has_value` — except that `disable()` leaves a delivered-but-unconsumed
outcome in place, so a `disabled` block may retain one; a `complete` block
holds neither (both were consumed in exchange for the phase); never both
populated. -/
abbrev block_invariant {T κ : Type} (d : completion_data T κ) : Prop :=
  (d.callback_.isSome ↔ d.state_ = .has_callback) ∧
  (d.value_.isSome = true → d.state_ = .has_value ∨ d.state_ = .disabled) ∧
  (d.state_ = .has_value → d.value_.isSome = true) ∧
  ¬(d.value_.isSome = true ∧ d.callback_.isSome = true)

/-! ## Claim theorems over the single-block view -/

/-- Claim C1 (confirmed).  Once a delivery has been accepted (phase
`has_value` or `complete`) or the block is `broken`, any further
`completion_promise::complete` — and hence `set_value` and `set_exception`
— throws `std::logic_error`; in phase `disabled` a delivery is silently
absorbed: no throw, no continuation invocation, block unchanged. -/
theorem c1_delivery_exactly_once (T κ E : Type) [Inhabited T]
    (run : κ → exceptional T → Except E Unit)
    (d : completion_data T κ) (v : exceptional T) (w : T) (e : Nat) :
    ((d.state_ = .has_value ∨ d.state_ = .complete ∨ d.state_ = .broken) →
      completion_promise.complete run d v =
        (d, [], .error (.logic_error "invalid state for completing a completion_promise")) ∧
      completion_promise.set_value run d w =
        (d, [], .error (.logic_error "invalid state for completing a completion_promise")) ∧
      completion_promise.set_exception run d (some e) =
        (d, [], .error (.logic_error "invalid state for completing a completion_promise"))) ∧
    (d.state_ = .disabled →
      completion_promise.complete run d v = (d, [], .ok ()) ∧
      completion_promise.set_value run d w = (d, [], .ok ()) ∧
      completion_promise.set_exception run d (some e) = (d, [], .ok ())) := by
  constructor
  · rintro (h | h | h) <;>
      simp [completion_promise.complete, completion_promise.set_value,
            completion_promise.set_exception, exceptional.failure, h]
  · intro h
    simp [completion_promise.complete, completion_promise.set_value,
          completion_promise.set_exception, exceptional.failure, h]

/-- Witness for C1: a block holding a delivered value rejects a second
delivery with the logic error, and a disabled block absorbs one silently. -/
theorem c1_delivery_exactly_once_witness :
    completion_promise.complete
        (fun (_ : Nat) (_ : exceptional Int) => (Except.ok () : Except Nat Unit))
        { state_ := .has_value, value_ := some (exceptional.success 5), callback_ := none }
        (exceptional.success 7)
      = ({ state_ := .has_value, value_ := some (exceptional.success 5), callback_ := none },
         [], .error (.logic_error "invalid state for completing a completion_promise")) ∧
    completion_promise.complete
        (fun (_ : Nat) (_ : exceptional Int) => (Except.ok () : Except Nat Unit))
        { state_ := .disabled, value_ := none, callback_ := none }
        (exceptional.success 7)
      = ({ state_ := .disabled, value_ := none, callback_ := none }, [], .ok ()) :=
  ⟨((c1_delivery_exactly_once Int Nat Nat
      (fun _ _ => Except.ok ())
      { state_ := .has_value, value_ := some (exceptional.success 5), callback_ := none }
      (exceptional.success 7) 7 0).1 (Or.inl rfl)).1,
   ((c1_delivery_exactly_once Int Nat Nat
      (fun _ _ => Except.ok ())
      { state_ := .disabled, value_ := none, callback_ := none }
      (exceptional.success 7) 7 0).2 rfl).1⟩

/-- Claim C2 (confirmed).  Starting from a fresh block, delivering an
outcome `o` and then registering a continuation `f` produces exactly the
same result as registering `f` and then delivering `o`: identical final
block, phase `complete`, `f` invoked exactly once with `o`, and the same
throw channel (also when `f` itself throws). -/
theorem c2_order_independence (T : Type) [Inhabited T] (κ E : Type)
    (run : κ → exceptional T → Except E Unit) (o : exceptional T) (f : κ) :
    (completion_promise.complete run
        (completion.on_complete run (completion_data.fresh T κ) f).1 o).1
      = (completion.on_complete run
          (completion_promise.complete run (completion_data.fresh T κ) o).1 f).1 ∧
    (completion_promise.complete run
        (completion.on_complete run (completion_data.fresh T κ) f).1 o).1.state_
      = .complete ∧
    (completion.on_complete run (completion_data.fresh T κ) f).2.1 ++
      (completion_promise.complete run
        (completion.on_complete run (completion_data.fresh T κ) f).1 o).2.1
      = [(f, o)] ∧
    (completion_promise.complete run (completion_data.fresh T κ) o).2.1 ++
      (completion.on_complete run
        (completion_promise.complete run (completion_data.fresh T κ) o).1 f).2.1
      = [(f, o)] ∧
    (completion_promise.complete run
        (completion.on_complete run (completion_data.fresh T κ) f).1 o).2.2
      = (completion.on_complete run
          (completion_promise.complete run (completion_data.fresh T κ) o).1 f).2.2 :=
  ⟨rfl, rfl, rfl, rfl, rfl⟩

/-- Claim C4 (confirmed).  On a block in phase `has_callback`, `complete`
invokes the stored continuation inline with the delivered outcome, and the
scope-exit guard sets the phase to `complete` and clears the continuation
slot whether the continuation returns or throws; a thrown error is then
propagated. -/
theorem c4_callback_guard (T κ E : Type)
    (run : κ → exceptional T → Except E Unit)
    (d : completion_data T κ) (k : κ) (v : exceptional T)
    (h1 : d.state_ = .has_callback) (h2 : d.callback_ = some k) :
    completion_promise.complete run d v =
      ({ d with state_ := .complete, callback_ := none }, [(k, v)],
       (run k v).mapError .cb_error) := by
  simp [completion_promise.complete, h1, h2]

/-- Witness for C4: a continuation that throws (`run` returns an error);
the block still ends `complete` with the continuation cleared, and the
error propagates out of `complete`. -/
theorem c4_callback_guard_witness :
    completion_promise.complete
        (fun (_ : Nat) (_ : exceptional Int) => (Except.error 9 : Except Nat Unit))
        { state_ := .has_callback, value_ := none, callback_ := some 3 }
        (exceptional.success 5)
      = ({ state_ := .complete, value_ := none, callback_ := none },
         [(3, exceptional.success 5)], .error (.cb_error 9)) :=
  c4_callback_guard Int Nat Nat (fun _ _ => Except.error 9)
    { state_ := .has_callback, value_ := none, callback_ := some 3 }
    3 (exceptional.success 5) rfl rfl

/-- Claim C10 (confirmed).  Whenever `completion_promise::complete` or
`completion::on_complete` throws the invalid-state `std::logic_error`, the
block is exactly as it was before the call and no continuation was
invoked. -/
theorem c10_logic_error_leaves_block_unchanged (T κ E : Type) [Inhabited T]
    (run : κ → exceptional T → Except E Unit)
    (d : completion_data T κ) (v : exceptional T) (f : κ) :
    (∀ msg, (completion_promise.complete run d v).2.2 = .error (.logic_error msg) →
      completion_promise.complete run d v = (d, [], .error (.logic_error msg))) ∧
    (∀ msg, (completion.on_complete run d f).2.2 = .error (.logic_error msg) →
      completion.on_complete run d f = (d, [], .error (.logic_error msg))) := by
  constructor
  · intro msg h
    cases hs : d.state_ <;>
      simp only [completion_promise.complete, hs] at h ⊢ <;> try simp_all
    · cases hc : d.callback_ <;> simp only [hc] at h ⊢
      · simp at h
      · cases hr : run _ v <;> simp [hr, Except.mapError] at h
  · intro msg h
    cases hs : d.state_ <;>
      simp only [completion.on_complete, hs] at h ⊢ <;> try simp_all
    · cases hr : run f (d.value_.getD default) <;>
        simp [hr, Except.mapError] at h

/-- Witness for C10: a second delivery to a completed block throws the
logic error and leaves the block untouched. -/
theorem c10_logic_error_leaves_block_unchanged_witness :
    completion_promise.complete
        (fun (_ : Nat) (_ : exceptional Int) => (Except.ok () : Except Nat Unit))
        { state_ := .complete, value_ := none, callback_ := none }
        (exceptional.success 7)
      = ({ state_ := .complete, value_ := none, callback_ := none },
         [], .error (.logic_error "invalid state for completing a completion_promise")) :=
  (c10_logic_error_leaves_block_unchanged Int Nat Nat (fun _ _ => Except.ok ())
      { state_ := .complete, value_ := none, callback_ := none }
      (exceptional.success 7) 0).1
    "invalid state for completing a completion_promise" rfl

/-- Claim C6 (code_bug).  The specification and the state diagram in the
source say destroying the producer handle while the phase is `no_value`
moves the block to `broken`, but `completion_promise` declares no
destructor: dropping the handle performs no transition, the phase stays
`no_value`, and `broken` is never assigned anywhere in the source. -/
theorem c6_destroying_promise_never_breaks (T κ : Type)
    (d : completion_data T κ) :
    completion_promise.drop d = d ∧
    (completion_promise.drop (completion_data.fresh T κ)).state_ = .no_value ∧
    completion_state.no_value ≠ completion_state.broken :=
  ⟨rfl, rfl, by decide⟩

/-- Counterexample to claim C7: a reachable block in phase `complete`
(register a continuation on a fresh block, then deliver) on which
`completion::disable` does not fail — it returns normally and moves the
block to `disabled`, while the claim says a logic error is raised. -/
theorem c7_disable_on_complete_counterexample :
    ((completion_promise.complete
        (fun (_ : Nat) (_ : exceptional Int) => (Except.ok () : Except Nat Unit))
        (completion.on_complete
          (fun (_ : Nat) (_ : exceptional Int) => (Except.ok () : Except Nat Unit))
          (completion_data.fresh Int Nat) 7).1
        (exceptional.success 5)).1.state_ = .complete) ∧
    completion.disable
        (completion_promise.complete
          (fun (_ : Nat) (_ : exceptional Int) => (Except.ok () : Except Nat Unit))
          (completion.on_complete
            (fun (_ : Nat) (_ : exceptional Int) => (Except.ok () : Except Nat Unit))
            (completion_data.fresh Int Nat) 7).1
          (exceptional.success 5)).1
      = { state_ := .disabled, value_ := none, callback_ := none } := by
  decide

/-- Claim C7 as amended (the code's actual behavior): `completion::disable`
never fails from any phase — `complete` included: it unconditionally sets
the phase to `disabled`, clears the stored continuation, leaves the stored
outcome in place, and is idempotent. -/
theorem c7_disable_unconditional (T κ : Type) (d : completion_data T κ) :
    (completion.disable d).state_ = .disabled ∧
    (completion.disable d).callback_ = none ∧
    (completion.disable d).value_ = d.value_ ∧
    completion.disable (completion.disable d) = completion.disable d :=
  ⟨rfl, rfl, rfl, rfl⟩

/-- Counterexample to claim C5: the blanket invariant "`outcome` populated
iff phase ∈ {HasValue, Complete}" is not preserved.  A fresh block with a
continuation registered satisfies the invariant; delivering to it hands the
outcome directly to the continuation — `value_` is never written — so the
resulting block has phase `complete` with `value_` empty, violating the
"iff". -/
theorem c5_spec_invariant_counterexample :
    spec_invariant
      (completion.on_complete
        (fun (_ : Nat) (_ : exceptional Int) => (Except.ok () : Except Nat Unit))
        (completion_data.fresh Int Nat) 7).1 ∧
    ((completion_promise.complete
        (fun (_ : Nat) (_ : exceptional Int) => (Except.ok () : Except Nat Unit))
        (completion.on_complete
          (fun (_ : Nat) (_ : exceptional Int) => (Except.ok () : Except Nat Unit))
          (completion_data.fresh Int Nat) 7).1
        (exceptional.success 5)).1.state_ = .complete) ∧
    ¬ spec_invariant
      (completion_promise.complete
        (fun (_ : Nat) (_ : exceptional Int) => (Except.ok () : Except Nat Unit))
        (completion.on_complete
          (fun (_ : Nat) (_ : exceptional Int) => (Except.ok () : Except Nat Unit))
          (completion_data.fresh Int Nat) 7).1
        (exceptional.success 5)).1 := by
  decide

/-- Claim C5 as amended: every operation on a block preserves the invariant
the code actually maintains — continuation populated iff phase
`has_callback`; outcome populated iff phase `has_value`, except that a
`disabled` block may retain an already-delivered outcome; a `complete`
block holds neither; never both populated.  (`completion::get` registers a
waiter through `on_complete`, so the `on_complete` clause covers it.) -/
theorem c5_block_invariant_preserved (T κ E : Type) [Inhabited T]
    (run : κ → exceptional T → Except E Unit)
    (d : completion_data T κ) (v : exceptional T) (k : κ)
    (h : block_invariant d) :
    block_invariant (completion_promise.complete run d v).1 ∧
    block_invariant (completion.on_complete run d k).1 ∧
    block_invariant (completion.disable d) ∧
    block_invariant (@completion.wrap_call T κ E d k).1 := by
  obtain ⟨st, val, cb⟩ := d
  cases st <;> cases val <;> cases cb <;>
    simp_all [block_invariant, completion_promise.complete,
              completion.on_complete, completion.disable, completion.wrap_call]

/-! ## The completion state machine, multi-block chain view

`completion::map` (through `wrap_call`) splices a fresh promise/completion
pair onto an existing block: in phase `no_value` it installs as the
callback the closure
`[result_promise, func, exfunc] (exceptional<T>&& result)
   { result_promise.complete((std::move(result).*exfunc)(std::move(func))); }`,
and in phase `has_value` it runs that delivery immediately.  To follow such
closures the embedding keeps every block in one address space
(`Nat → chain.block`): a callback is the pair of the target block's address
and the mapped action, and invoking it is `complete` on the target with
`exceptional::map` applied — exactly the closure above specialized to
`exfunc = &exceptional<T>::map`.  The value type is fixed to `Int` (the
chain in the claim is `int` throughout).  Recursion through callbacks is
bounded by explicit fuel; the C++ recursion depth equals the chain length,
and the lemmas discharge the fuel.  `wrap_call` reads and writes
`impl_->state` (sic) where `completion_data` declares `state_`; as in the
single-block view those accesses are embedded against `state_`. -/

namespace chain

/-- The action stored by a chained `map`: a C++ callable from `int` that
may throw. -/
abbrev CF := Int → Except Nat Int

/-- A `completion_data<int>` block whose callback slot holds a
`wrap_call`-installed closure: target block address and mapped action. -/
structure block where
  state_ : completion_state
  value_ : Option (exceptional Int)
  callback_ : Option (Nat × CF)

/-- The block `std::make_shared<completion_data<int>>()` value-initializes. -/
def freshBlock : block :=
  { state_ := .no_value, value_ := none, callback_ := none }

/-- Pointwise store update of the address space. -/
def updateB (bs : Nat → block) (i : Nat) (b : block) : Nat → block :=
  fun j => if j = i then b else bs j

inductive chain_error where
  | out_of_fuel
  | logic_error
  | bad_function_call
  deriving DecidableEq, Repr

/-- `completion_promise<int>::complete(value)` on block `i`, following the
`wrap_call` closures: in phase `has_callback` the stored callback delivers
`value.map f` to its target block, and the scope-exit guard afterwards sets
this block to `complete` with the callback cleared (`r.1 i` re-reads the
block through the shared pointer, as the guard's lambda does). -/
def completeAt : Nat → (Nat → block) → Nat → exceptional Int →
    (Nat → block) × Except chain_error Unit
  | 0, bs, _, _ => (bs, .error .out_of_fuel)
  | fuel + 1, bs, i, v =>
    let b := bs i
    match b.state_ with
    | .no_value =>
      (updateB bs i { b with value_ := some v, state_ := .has_value }, .ok ())
    | .has_callback =>
      match b.callback_ with
      | some (j, f) =>
        let r := completeAt fuel bs j (v.map f)
        (updateB r.1 i { r.1 i with state_ := .complete, callback_ := none }, r.2)
      | none =>
        (updateB bs i { b with state_ := .complete, callback_ := none },
         .error .bad_function_call)
    | .disabled => (bs, .ok ())
    | _ => (bs, .error .logic_error)

/-- The shared address space plus an allocation bound: addresses at or
beyond `next` are unallocated (and by the `freshBlock` convention hold a
value-initialized block, which allocation makes explicit again). -/
structure heap where
  blocks : Nat → block
  next : Nat

/-- One `completion_promise<int>` with its data block at address 0. -/
def initHeap : heap :=
  { blocks := fun _ => freshBlock, next := 1 }

/-- `completion<int>::map(f)` on block `i` (`wrap_call` with
`exfunc = &exceptional<int>::map`): allocate the backing block of the fresh
`result_promise`, then either install the chaining closure (`no_value`) or
deliver the moved-out value through it immediately (`has_value`); returns
the address backing the returned completion.  The immediate delivery needs
recursion depth 1: its target is the just-allocated block. -/
def mapOp (h : heap) (i : Nat) (f : CF) : heap × Except chain_error Nat :=
  let b := h.blocks i
  match b.state_ with
  | .no_value =>
    let j := h.next
    let bs1 := updateB h.blocks j freshBlock
    let bs2 := updateB bs1 i { b with callback_ := some (j, f), state_ := .has_callback }
    ({ blocks := bs2, next := j + 1 }, .ok j)
  | .has_value =>
    let j := h.next
    let bs1 := updateB h.blocks j freshBlock
    let v := b.value_.getD default
    let r := completeAt 1 bs1 j (v.map f)
    let bs3 := updateB r.1 i { r.1 i with state_ := .complete, value_ := none }
    ({ blocks := bs3, next := j + 1 }, r.2.map fun _ => j)
  | _ => (h, .error .logic_error)

/-- `fval = fval.map(f1); fval = fval.map(f2); ...`: fold `mapOp` along the
chain, threading the consumer's block address; a thrown error stops the
chain (it would propagate out of the loop). -/
def buildChain : heap → Nat → List CF → heap × Except chain_error Nat
  | h, i, [] => (h, .ok i)
  | h, i, f :: fs =>
    match mapOp h i f with
    | (h1, .ok j) => buildChain h1 j fs
    | (h1, .error e) => (h1, .error e)

inductive get_error where
  | carried (e : Nat)
  | would_block
  | logic_error
  | chain_err (e : chain_error)
  deriving DecidableEq, Repr

/-- `completion<int>::get()` on block `i`: registers a waiter through
`on_complete` and blocks on the future.  With a value present the waiter
runs inline: the block flips to `complete`, the moved-out outcome's `get`
yields the value or rethrows the carried error.  With no deliverer left
the `no_value` path would block forever (`would_block`); the remaining
phases make `on_complete` throw its logic error. -/
def getOp (bs : Nat → block) (i : Nat) : (Nat → block) × Except get_error Int :=
  let b := bs i
  match b.state_ with
  | .has_value =>
    let v := b.value_.getD default
    (updateB bs i { b with state_ := .complete, value_ := none },
     match v.ex_ with
     | some e => .error (.carried e)
     | none => .ok v.val_)
  | .no_value => (bs, .error .would_block)
  | _ => (bs, .error .logic_error)

/-- A pure C++ callable (one that never throws). -/
def liftF (f : Int → Int) : CF := fun x => .ok (f x)

/-- The scenario of the claim and of the `completion_map` test: make a
promise, chain `map` with `fs` (pure functions) onto its completion,
deliver `set_value(v)`, then `get()` on the final consumer. -/
def chainScenario (fs : List (Int → Int)) (v : Int) : Except get_error Int :=
  match buildChain initHeap 0 (fs.map liftF) with
  | (h, .ok j) =>
    match completeAt (fs.length + 1) h.blocks 0 (exceptional.success v) with
    | (bs, .ok _) => (getOp bs j).2
    | (_, .error e) => .error (.chain_err e)
  | (_, .error e) => .error (.chain_err e)

/-- Addresses at or beyond the allocation bound hold fresh blocks. -/
def heapWF (h : heap) : Prop :=
  ∀ k, h.next ≤ k → h.blocks k = freshBlock

theorem updateB_self (bs : Nat → block) (i : Nat) (b : block) :
    updateB bs i b i = b := by
  simp [updateB]

theorem updateB_other (bs : Nat → block) (i : Nat) (b : block)
    (m : Nat) (hm : m ≠ i) : updateB bs i b m = bs m := by
  simp [updateB, hm]

/-- Building a chain from a fresh block only writes that block and newly
allocated ones: every other allocated address is untouched. -/
theorem buildChain_untouched :
    ∀ (fs : List CF) (h : heap) (i m : Nat),
      h.blocks i = freshBlock → i < h.next → m < h.next → m ≠ i →
      (buildChain h i fs).1.blocks m = h.blocks m
  | [], h, i, m, _, _, _, _ => rfl
  | f :: fs, h, i, m, hfresh, hi, hm, hmi => by
    have hji : h.next ≠ i := fun hc => absurd (hc ▸ hi) (lt_irrefl _)
    have hstep : mapOp h i f =
        ({ blocks := updateB (updateB h.blocks h.next freshBlock) i
              { h.blocks i with callback_ := some (h.next, f), state_ := .has_callback },
           next := h.next + 1 }, .ok h.next) := by
      simp [mapOp, hfresh, freshBlock]
    have hrec := buildChain_untouched fs
      { blocks := updateB (updateB h.blocks h.next freshBlock) i
          { h.blocks i with callback_ := some (h.next, f), state_ := .has_callback },
        next := h.next + 1 }
      h.next m
      (by simp [updateB, hji])
      (Nat.lt_succ_self _)
      (Nat.lt_succ_of_lt hm)
      (Nat.ne_of_lt hm)
    calc (buildChain h i (f :: fs)).1.blocks m
        = (buildChain
            { blocks := updateB (updateB h.blocks h.next freshBlock) i
                { h.blocks i with callback_ := some (h.next, f), state_ := .has_callback },
              next := h.next + 1 } h.next fs).1.blocks m := by
          simp [buildChain, hstep]
      _ = updateB (updateB h.blocks h.next freshBlock) i
            { h.blocks i with callback_ := some (h.next, f), state_ := .has_callback } m := hrec
      _ = h.blocks m := by
          rw [updateB_other _ _ _ _ hmi, updateB_other _ _ _ _ (Nat.ne_of_lt hm)]

/-- `mapOp` on a fresh block: allocate, install the chaining closure, flip
to `has_callback`, return the new consumer's address. -/
theorem mapOp_fresh (h : heap) (i : Nat) (f : CF)
    (hfresh : h.blocks i = freshBlock) :
    mapOp h i f =
      ({ blocks := updateB (updateB h.blocks h.next freshBlock) i
            { state_ := .has_callback, value_ := none, callback_ := some (h.next, f) },
         next := h.next + 1 }, .ok h.next) := by
  simp [mapOp, hfresh, freshBlock]

/-- One delivery step into a fresh block stores the outcome. -/
theorem completeAt_fresh (fuel : Nat) (bs : Nat → block) (i : Nat)
    (v : exceptional Int) (hb : bs i = freshBlock) :
    completeAt (fuel + 1) bs i v =
      (updateB bs i { state_ := .has_value, value_ := some v, callback_ := none },
       .ok ()) := by
  simp [completeAt, hb, freshBlock]

/-- One delivery step into a block holding a chaining closure: deliver the
mapped outcome to the target, then the guard completes this block. -/
theorem completeAt_callback (fuel : Nat) (bs : Nat → block) (i j : Nat)
    (f : CF) (v : exceptional Int)
    (hb : bs i = { state_ := .has_callback, value_ := none, callback_ := some (j, f) }) :
    completeAt (fuel + 1) bs i v =
      (updateB (completeAt fuel bs j (v.map f)).1 i
        { (completeAt fuel bs j (v.map f)).1 i with
            state_ := .complete, callback_ := none },
       (completeAt fuel bs j (v.map f)).2) := by
  simp [completeAt, hb]

/-- Delivering into a freshly built `map` chain: the chain is built without
error, and the delivery cascades through every installed closure, leaving
the final consumer's block holding the left fold of `exceptional::map` over
the chained actions. -/
theorem chain_deliver :
    ∀ (fs : List CF) (h : heap) (i : Nat) (v : exceptional Int),
      h.blocks i = freshBlock → i < h.next → heapWF h →
      ∃ h2 j, buildChain h i fs = (h2, .ok j) ∧ i ≤ j ∧
        ∃ bs2, completeAt (fs.length + 1) h2.blocks i v = (bs2, .ok ()) ∧
          bs2 j = { state_ := .has_value,
                    value_ := some (fs.foldl (fun a g => a.map g) v),
                    callback_ := none }
  | [], h, i, v, hfresh, _, _ =>
    ⟨h, i, rfl, Nat.le_refl i,
     updateB h.blocks i { state_ := .has_value, value_ := some v, callback_ := none },
     completeAt_fresh 0 h.blocks i v hfresh,
     by rw [updateB_self]; rfl⟩
  | f :: fs, h, i, v, hfresh, hi, hwf => by
    have hji : h.next ≠ i := Nat.ne_of_gt hi
    set h1 : heap :=
      { blocks := updateB (updateB h.blocks h.next freshBlock) i
          { state_ := .has_callback, value_ := none, callback_ := some (h.next, f) },
        next := h.next + 1 } with hh1
    have hstep : mapOp h i f = (h1, .ok h.next) := by
      rw [hh1]; exact mapOp_fresh h i f hfresh
    have h1fresh : h1.blocks h.next = freshBlock := by
      rw [hh1]; simp [updateB, hji]
    have h1wf : heapWF h1 := by
      intro k hk
      have hk1 : h.next < k := hk
      have hki : k ≠ i := Nat.ne_of_gt (Nat.lt_trans hi hk1)
      have hkn : k ≠ h.next := Nat.ne_of_gt hk1
      rw [hh1]
      simp only [updateB, hki, hkn, if_false]
      exact hwf k (Nat.le_of_lt hk1)
    obtain ⟨h2, j, hbc, hj, bs2, hca, hbs⟩ :=
      chain_deliver fs h1 h.next (v.map f) h1fresh (Nat.lt_succ_self _) h1wf
    have hI : h2.blocks i =
        { state_ := .has_callback, value_ := none, callback_ := some (h.next, f) } := by
      have hu := buildChain_untouched fs h1 h.next i h1fresh
        (Nat.lt_succ_self _) (Nat.lt_succ_of_lt hi) (Nat.ne_of_lt hi)
      rw [hbc] at hu
      have hu2 : h2.blocks i = h1.blocks i := hu
      rw [hu2, hh1]
      simp [updateB]
    refine ⟨h2, j, ?_, Nat.le_of_lt (Nat.lt_of_lt_of_le hi hj),
      updateB bs2 i { bs2 i with state_ := .complete, callback_ := none }, ?_, ?_⟩
    · show buildChain h i (f :: fs) = (h2, .ok j)
      simp only [buildChain]
      rw [hstep]
      exact hbc
    · show completeAt ((f :: fs).length + 1) h2.blocks i v = _
      have hlen : (f :: fs).length + 1 = (fs.length + 1) + 1 := by simp
      rw [hlen, completeAt_callback (fs.length + 1) h2.blocks i h.next f v hI, hca]
    · rw [updateB_other bs2 i _ j (Nat.ne_of_gt (Nat.lt_of_lt_of_le hi hj))]
      simpa using hbs

/-- Folding `exceptional::map` with pure (never-throwing) actions over a
success outcome applies the functions in sequence. -/
theorem foldl_map_lift : ∀ (fs : List (Int → Int)) (v : Int),
    (fs.map liftF).foldl (fun a g => a.map g) (exceptional.success v)
      = exceptional.success (fs.foldl (fun a f => f a) v)
  | [], _ => rfl
  | f :: fs, v => by
    have h1 : (exceptional.success v).map (liftF f) = exceptional.success (f v) := rfl
    simp only [List.map, List.foldl, h1]
    exact foldl_map_lift fs (f v)

end chain

/-- Claim C3 (code_bug: see `completion.wrap_call` on the `impl_->state`
member access; the behavior proved here is that of the source with that
member read as `state_`, which the repository's own `completion_map` test
requires).  Chaining `map` with functions `f1..fN` onto a fresh completion
and then delivering `v` yields `fN(...f1(v))` from the final consumer's
`get()`; in particular twenty `x * 2` steps applied to a delivered `1`
yield `2 ^ 20 = 1 << 20`. -/
theorem c3_map_chain (fs : List (Int → Int)) (v : Int) :
    chain.chainScenario fs v = .ok (fs.foldl (fun a f => f a) v) ∧
    chain.chainScenario (List.replicate 20 (fun x => x * 2)) 1 = .ok (2 ^ 20) := by
  have main : ∀ (gs : List (Int → Int)) (w : Int),
      chain.chainScenario gs w = .ok (gs.foldl (fun a f => f a) w) := by
    intro gs w
    obtain ⟨h2, j, hbc, hj, bs2, hca, hbs⟩ :=
      chain.chain_deliver (gs.map chain.liftF) chain.initHeap 0
        (exceptional.success w) rfl Nat.one_pos (fun k _ => rfl)
    simp only [chain.chainScenario, hbc]
    simp only [List.length_map] at hca
    simp only [hca]
    simp only [chain.getOp, hbs]
    rw [chain.foldl_map_lift]
    rfl
  refine ⟨main fs v, ?_⟩
  have h20 : (List.replicate 20 (fun x : Int => x * 2)).foldl (fun a f => f a) 1
      = 2 ^ 20 := by decide
  rw [main, h20]

/-- Claim C8 (confirmed).  `exceptional::map` is total over the error
channel (the embedding returns an `exceptional` on every input, with no
throw channel, mirroring the `noexcept` body built from `try_to`):
* on a failure it propagates the same error into the new outcome and never
  invokes the action (the result does not even depend on it);
* on a success it invokes the action exactly once with the carried value —
  with no arguments in the `exceptional<void>` specialization — and any
  error the action raises becomes the result's failure while any value it
  returns becomes the result's success. -/
theorem c8_exceptional_map_total (T U : Type) [Inhabited T] [Inhabited U]
    (e : Nat) (w : T) (f g : T → Except Nat U) (x : T)
    (fv gv : Unit → Except Nat U) :
    (exceptional.map { ex_ := some e, val_ := w } f).get = .error e ∧
    (exceptional.mapCalls { ex_ := some e, val_ := w } f).2 = [] ∧
    exceptional.map { ex_ := some e, val_ := w } f
      = exceptional.map { ex_ := some e, val_ := w } g ∧
    (exceptional.mapCalls { ex_ := none, val_ := x } f).2 = [x] ∧
    (∀ u, f x = .ok u →
      (exceptional.map { ex_ := none, val_ := x } f).get = .ok u) ∧
    (∀ e2, f x = .error e2 →
      (exceptional.map { ex_ := none, val_ := x } f).get = .error e2) ∧
    (exceptional_void.map { ex_ := some e } fv).get = .error e ∧
    (exceptional_void.mapCalls { ex_ := some e } fv).2 = [] ∧
    exceptional_void.map { ex_ := some e } fv
      = exceptional_void.map { ex_ := some e } gv ∧
    (exceptional_void.mapCalls { ex_ := none } fv).2 = [()] ∧
    (∀ u, fv () = .ok u →
      (exceptional_void.map { ex_ := none } fv).get = .ok u) ∧
    (∀ e2, fv () = .error e2 →
      (exceptional_void.map { ex_ := none } fv).get = .error e2) := by
  refine ⟨rfl, rfl, rfl, rfl, ?_, ?_, rfl, rfl, rfl, rfl, ?_, ?_⟩
  · intro u hu
    simp [exceptional.map, exceptional.get, hu]
  · intro e2 he
    simp [exceptional.map, exceptional.get, he]
  · intro u hu
    simp [exceptional_void.map, exceptional.get, hu]
  · intro e2 he
    simp [exceptional_void.map, exceptional.get, he]

/-- Witness for C8: a pure action's value becomes the success, a thrown
error becomes the failure. -/
theorem c8_exceptional_map_total_witness :
    (exceptional.map { ex_ := none, val_ := (2 : Int) }
        (fun n => Except.ok (n + 1))).get = .ok 3 ∧
    (exceptional.map { ex_ := none, val_ := (2 : Int) }
        (fun _ => (Except.error 7 : Except Nat Int))).get = .error 7 :=
  ⟨(c8_exceptional_map_total Int Int 0 0 (fun n => Except.ok (n + 1))
      (fun n => Except.ok (n + 1)) 2 (fun _ => Except.ok 0)
      (fun _ => Except.ok 0)).2.2.2.2.1 3 rfl,
   (c8_exceptional_map_total Int Int 0 0
      (fun _ => (Except.error 7 : Except Nat Int))
      (fun _ => (Except.error 7 : Except Nat Int)) 2 (fun _ => Except.ok 0)
      (fun _ => Except.ok 0)).2.2.2.2.2.1 7 rfl⟩

/-- Counterexample to claim C9: the older duplicate `try_lock_until` (the
while-loop form) called on an unlocked mutex with an already-expired
deadline (first clock reading 5, expiry 0) returns `false` after zero
`try_lock` attempts, while the claim says at least one attempt is made and
an unlocked mutex is acquired. -/
theorem c9_legacy_counterexample :
    spin_mutex.try_lock_until_legacy false 0 [5] = (false, 0) ∧
    ¬(1 ≤ (spin_mutex.try_lock_until_legacy false 0 [5]).2) := by
  decide

/-- Claim C9 as amended: the documented `include/monadic/spin_mutex.hpp`
implementation of `try_lock_until` (do-while) always performs at least one
`try_lock` attempt and acquires an unlocked mutex — returning `true` with
exactly one attempt — for every expiry time and clock, including expired
deadlines; the older duplicate implementation instead makes no attempt and
returns `false` whenever the deadline has already passed. -/
theorem c9_try_lock_until_attempts (locked : Bool) (expiry : Int)
    (clock : List Int) (now : Int) (rest : List Int) (h : expiry ≤ now) :
    1 ≤ (spin_mutex.try_lock_until locked expiry clock).2 ∧
    spin_mutex.try_lock_until false expiry clock = (true, 1) ∧
    spin_mutex.try_lock_until_legacy locked expiry (now :: rest) = (false, 0) := by
  refine ⟨spin_mutex.tlu_loop_attempts locked expiry clock 0,
    spin_mutex.tlu_loop_unlocked expiry clock 0, ?_⟩
  simp [spin_mutex.try_lock_until_legacy, spin_mutex.tlu_legacy_loop,
    not_lt.mpr h]

/-- Witness for the amended C9: a locked mutex with an exhausted clock, an
unlocked one, and an expired deadline for the legacy variant. -/
theorem c9_try_lock_until_attempts_witness :
    1 ≤ (spin_mutex.try_lock_until true 0 []).2 ∧
    spin_mutex.try_lock_until false 0 [] = (true, 1) ∧
    spin_mutex.try_lock_until_legacy true 0 [5] = (false, 0) :=
  c9_try_lock_until_attempts true 0 [] 5 [] (by decide)

/-- Witness for the amended C5: the preserved invariant holds of a fresh
block and of the block that results from delivering a value to it. -/
theorem c5_block_invariant_preserved_witness :
    block_invariant (completion_data.fresh Int Nat) ∧
    block_invariant
      (completion_promise.complete
        (fun (_ : Nat) (_ : exceptional Int) => (Except.ok () : Except Nat Unit))
        (completion_data.fresh Int Nat) (exceptional.success 5)).1 :=
  ⟨by decide,
   (c5_block_invariant_preserved Int Nat Nat (fun _ _ => Except.ok ())
      (completion_data.fresh Int Nat) (exceptional.success 5) 0 (by decide)).1⟩
